import Mathlib

/-!
Verification development for the `nfo` output & shutdown coordinator of the
snugforge repository.  Go source files are embedded shallowly:

* byte slices (`[]byte`) are modelled as `List Char` (`Str` below);
* Go machine integers are modelled as `Int`/`Nat` (no overflow is relevant
  to the claims: the quantities involved are small counters and flags);
* `float64` quantities in the transfer-rate computation are modelled as `ℚ`
  (only sign and order comparisons of those quantities matter here);
* fallible or suppressed operations return `Option`;
* the concurrent shutdown coordinator (`nfo/defer.go` together with
  `Fatal` from `nfo/nfo.go`) is modelled as a labelled transition system
  whose steps are the atomic actions of the Go code (CAS, atomic store,
  unbuffered-channel synchronisation, the drain sequence).
-/

namespace Snugforge

/-- Byte strings (`[]byte` and `string` in the Go source). -/
abbrev Str := List Char

/-- Decimal digit characters of `n`, most significant first, by
fuel-bounded recursion (`fuel > n` suffices) so that concrete values reduce
in the kernel. -/
def decDigitsAux : Nat → Nat → Str
  | 0, _ => []
  | fuel + 1, n =>
    if n < 10 then [Nat.digitChar n]
    else decDigitsAux fuel (n / 10) ++ [Nat.digitChar (n % 10)]

/-- Decimal digit characters of `n`, most significant first. -/
def decDigits (n : Nat) : Str := decDigitsAux (n + 1) n

/-- Modelled from the spec: the source of `Itoa` (nfo package) is not under
`src/`; only its declaration appears ("Cheap integer to fixed-width decimal
ASCII", timestamps are "fixed width, zero-padded").  `padDec n wid` is the
decimal of `n` left-padded with `'0'` to width `wid`. -/
def padDec (n wid : Nat) : Str :=
  List.replicate (wid - (decDigits n).length) '0' ++ decDigits n

/-- A Go wall-clock instant as decomposed by `time.Date`/`time.Clock`,
plus the zone abbreviation (`nfo.go` lines 308-333). -/
structure GoTime where
  year : Nat
  month : Nat
  day : Nat
  hour : Nat
  minute : Nat
  sec : Nat
  zone : Str
  deriving DecidableEq, Repr

/-- `genTS` (nfo.go lines 308-333): appends
`[YYYY/MM/DD HH:MM:SS TZ] ` built with `Itoa` at widths 4,2,2,2,2,2. -/
def genTS (t : GoTime) : Str :=
  ['['] ++ padDec t.year 4 ++ ['/'] ++ padDec t.month 2 ++ ['/']
    ++ padDec t.day 2 ++ [' '] ++ padDec t.hour 2 ++ [':'] ++ padDec t.minute 2
    ++ [':'] ++ padDec t.sec 2 ++ [' '] ++ t.zone ++ [']', ' ']

theorem decDigitsAux_length_le {fuel n w : Nat} (hf : n < fuel) (hw : 0 < w)
    (h : n < 10 ^ w) : (decDigitsAux fuel n).length ≤ w := by
  induction fuel generalizing n w with
  | zero => omega
  | succ fuel ih =>
    by_cases h10 : n < 10
    · simpa [decDigitsAux, h10] using hw
    · have hw2 : 2 ≤ w := by
        rcases Nat.lt_or_ge w 2 with hlt | hge
        · exfalso
          have hw1 : w = 1 := by omega
          subst hw1
          norm_num at h
          omega
        · exact hge
      have hdiv : n / 10 < 10 ^ (w - 1) := by
        rw [Nat.div_lt_iff_lt_mul (by norm_num)]
        calc n < 10 ^ w := h
        _ = 10 ^ (w - 1) * 10 := by
            rw [← pow_succ]
            congr 1
            omega
      have hfd : n / 10 < fuel := by
        have : n / 10 < n := Nat.div_lt_self (by omega) (by norm_num)
        omega
      have := ih hfd (by omega) hdiv
      simp [decDigitsAux, h10]
      omega

/-- Number of decimal digits is at most `w` when `n < 10 ^ w` (and `w > 0`). -/
theorem decDigits_length_le {n w : Nat} (hw : 0 < w) (h : n < 10 ^ w) :
    (decDigits n).length ≤ w :=
  decDigitsAux_length_le (Nat.lt_succ_self n) hw h

theorem decDigits_length_pos (n : Nat) : 0 < (decDigits n).length := by
  unfold decDigits decDigitsAux
  split
  · simp
  · simp

/-- Fixed-width rendering: `padDec n w` has length exactly `w` when `n < 10 ^ w`. -/
theorem padDec_length {n w : Nat} (hw : 0 < w) (h : n < 10 ^ w) :
    (padDec n w).length = w := by
  have h1 := decDigits_length_le hw h
  simp [padDec]
  omega

/-- A value passed through `...interface{}` to the dispatch functions.
`str` is a Go `string`, `bytes` a `[]byte`, `intV` any other value
(carried here as an integer; its `%v` rendering is `decDigits`). -/
inductive GoVal where
  | str (s : Str)
  | bytes (b : Str)
  | intV (n : Nat)
  deriving DecidableEq, Repr

/-- The `%v` rendering used by `fmt.Fprintf("%v", x)` for the value forms
of `GoVal` (strings print verbatim; integers in decimal). `[]byte` under
`%v` is irrelevant to the claims; it is rendered as its bytes here. -/
def goShow : GoVal → Str
  | .str s => s
  | .bytes b => b
  | .intV n => decDigits n

/-- The comma-join loop body of `fprintf` (nfo.go lines 445-451): item `n`
is rendered `"%v"` when `n == 0 || n == vlen-1` and `"%v, "` otherwise.
`total` is `vlen`, `n` the running index. -/
def joinLoopAux (r : GoVal → Str) (total : Nat) : Nat → List GoVal → Str
  | _, [] => []
  | n, item :: rest =>
      (if n = 0 ∨ n = total - 1 then r item else r item ++ (", ".data))
        ++ joinLoopAux r total (n + 1) rest

def joinLoop (r : GoVal → Str) (vars : List GoVal) : Str :=
  joinLoopAux r vars.length 0 vars

/-- `fprintf` (nfo.go lines 428-454).  `fmtApply` models
`fmt.Fprintf(buffer, str, vars...)` (the Go format-template engine, which is
standard-library code external to the repository); `r` models `%v`. -/
def fprintf (fmtApply : Str → List GoVal → Str) (r : GoVal → Str)
    (vars : List GoVal) : Str :=
  match vars with
  | [] => []
  | [v] =>
    match v with
    | .bytes b => b
    | v => r v
  | v :: _ :: _ =>
    match v with
    | .str s => fmtApply s vars.tail
    | _ => joinLoop r vars

/-- Comma-separated join: the shape the spec ("values are comma-joined")
describes, with `", "` between every two adjacent values. -/
def sepJoin (r : GoVal → Str) : List GoVal → Str
  | [] => []
  | [v] => r v
  | v :: w :: rest => r v ++ (", ".data) ++ sepJoin r (w :: rest)

theorem joinLoopAux_cons (r : GoVal → Str) (total n : Nat) (x : GoVal)
    (rest : List GoVal) :
    joinLoopAux r total n (x :: rest) =
      (if n = 0 ∨ n = total - 1 then r x else r x ++ (", ".data))
        ++ joinLoopAux r total (n + 1) rest := rfl

theorem joinLoopAux_eq_sepJoin (r : GoVal → Str) (total n : Nat)
    (items : List GoVal) (hn : n ≠ 0) (ht : n + items.length = total) :
    joinLoopAux r total n items = sepJoin r items := by
  induction items generalizing n with
  | nil => simp [joinLoopAux, sepJoin]
  | cons x rest ih =>
    cases rest with
    | nil =>
      have hx : n = 0 ∨ n = total - 1 := by
        right; simp at ht; omega
      rw [joinLoopAux_cons, if_pos hx]
      simp [joinLoopAux, sepJoin]
    | cons y t =>
      have h1 : ¬(n = 0 ∨ n = total - 1) := by
        simp at ht ⊢
        omega
      rw [joinLoopAux_cons, if_neg h1,
        ih (n + 1) (by omega) (by simp at ht ⊢; omega)]
      simp [sepJoin]

/-- With at least two arguments whose first is not a string, the loop output
is the first value's rendering directly followed by the comma-join of the
remaining values: the first two values get no separator. -/
theorem joinLoop_eq (r : GoVal → Str) (v w : GoVal) (rest : List GoVal) :
    joinLoop r (v :: w :: rest) = r v ++ sepJoin r (w :: rest) := by
  have h0 : (0 : Nat) = 0 ∨ (0 : Nat) = (v :: w :: rest).length - 1 := by
    left; rfl
  rw [joinLoop, joinLoopAux_cons, if_pos h0,
    joinLoopAux_eq_sepJoin r _ 1 (w :: rest) (by omega) (by simp; omega)]

/-! ### Severity levels and writer configuration (nfo.go lines 22-108) -/

def INFO : Nat := 1
def ERROR : Nat := 2
def WARN : Nat := 4
def NOTICE : Nat := 8
def DEBUG : Nat := 16
def TRACE : Nat := 32
def FATAL : Nat := 64
def AUX : Nat := 128
def AUX2 : Nat := 256
def AUX3 : Nat := 512
def AUX4 : Nat := 1024
def flash_txt : Nat := 2048
def print_txt : Nat := 4096
def stderr_txt : Nat := 8192
def bypass_lock : Nat := 16384
def no_logging : Nat := 32768

/-- `STD` (nfo.go line 43). -/
def STD : Nat := INFO ||| ERROR ||| WARN ||| NOTICE ||| FATAL ||| AUX ||| AUX2 ||| AUX3 ||| AUX4

/-- `ALL` (nfo.go line 44). -/
def ALL : Nat := STD ||| DEBUG ||| TRACE

/-- Go `a &^ b` (AND NOT): clears from `a` every bit set in `b`. -/
def bclear (a b : Nat) : Nat := a ^^^ (a &&& b)

/-- The dynamic type of a value stored as an `io.Writer`: `isCloser` records
whether the concrete type also implements `io.WriteCloser`. -/
structure GoWriter where
  id : Nat
  isCloser : Bool
  deriving DecidableEq, Repr

/-- `_logger` (nfo.go lines 103-108).  `prefix` is a Lean keyword, so the
field is named `pfx`. -/
structure Logger where
  pfx : Str
  textout : GoWriter
  fileout : GoWriter
  use_ts : Bool
  deriving DecidableEq, Repr

/-- The mutable global state read by `write2log`: the fatal flag, the
severity→writer map `l_map`, the current wall time, terminal conditions and
the export configuration. -/
structure LogSt where
  fatal_triggered : Nat
  lmap : Nat → Option Logger
  now : GoTime
  piped_stderr : Bool
  termW : Nat
  animations : Bool
  exportHooked : Bool
  enabled_exports : Nat

/-- The six severity classes of the external syslog-like sink. -/
inductive SyslogClass where
  | info | errC | warning | emerg | notice | debugC
  deriving DecidableEq, Repr

/-- The `switch flag` mapping of nfo.go lines 559-583.  A flag matching no
case performs no export call. -/
def syslogClassOf (flag : Nat) : Option SyslogClass :=
  if flag = INFO ∨ flag = AUX ∨ flag = AUX2 ∨ flag = AUX3 ∨ flag = AUX4 then
    some .info
  else if flag = ERROR then some .errC
  else if flag = WARN then some .warning
  else if flag = FATAL then some .emerg
  else if flag = NOTICE then some .notice
  else if flag = DEBUG ∨ flag = TRACE then some .debugC
  else none

/-- What one `write2log` call wrote, destination by destination. -/
structure Written where
  flashOut : Option Str
  textOut : Option Str
  fileOut : Option Str
  exportOut : Option (SyslogClass × Str)
  deriving DecidableEq, Repr

/-- The trailing-newline step of `write2log` (nfo.go lines 498-504): append
a newline unless the output already ends in one or the call is a flash
write. -/
def withNl (flag : Nat) (output : Str) : Str :=
  if output.length > 0 then
    if output.getLast? ≠ some '\n' ∧ flag &&& flash_txt ≠ flash_txt then
      output ++ ['\n']
    else output
  else
    if flag &&& flash_txt ≠ flash_txt then output ++ ['\n'] else output

/-- `write2log` (nfo.go lines 459-588).  Returns `none` when the call is
suppressed by the fatal gate (lines 461-467) or when `l_map` has no entry for
the level (where the Go code would dereference nil).  The terminal
flash-erase writes of lines 507-519 touch only the transient status line and
are not modelled as outputs. -/
def write2log (st : LogSt) (fmtApply : Str → List GoVal → Str)
    (r : GoVal → Str) (flag0 : Nat) (vars : List GoVal) : Option Written :=
  let gate : Option Nat :=
    if st.fatal_triggered = 1 then
      if flag0 &&& bypass_lock ≠ 0 then some (flag0 ^^^ bypass_lock) else none
    else some flag0
  match gate with
  | none => none
  | some flag1 =>
    let flag := bclear flag1 bypass_lock
    match st.lmap (bclear flag no_logging) with
    | none => none
    | some logger =>
      let pre : Str :=
        if flag &&& no_logging ≠ no_logging then
          (if logger.use_ts then genTS st.now else []) ++ logger.pfx
        else []
      let msg := fprintf fmtApply r vars
      let output := withNl flag (pre ++ msg)
      if flag &&& flash_txt ≠ 0 then
        if st.piped_stderr then
          some { flashOut := none, textOut := none, fileOut := none,
                 exportOut := none }
        else
          some { flashOut := some (output.take st.termW), textOut := none,
                 fileOut := none, exportOut := none }
      else
        if flag &&& no_logging ≠ 0 then
          some { flashOut := none, textOut := some output, fileOut := none,
                 exportOut := none }
        else
          let fileOut := if logger.use_ts then output else genTS st.now ++ output
          let exportOut :=
            if st.exportHooked ∧ st.enabled_exports &&& flag = flag then
              (syslogClassOf flag).map (fun c => (c, msg))
            else none
          some { flashOut := none, textOut := some output,
                 fileOut := some fileOut, exportOut := exportOut }

/-! The public dispatch functions (nfo.go lines 339-424), each a `write2log`
call at a fixed flag. -/

def LogI (st : LogSt) (F : Str → List GoVal → Str) (r : GoVal → Str)
    (vars : List GoVal) : Option Written := write2log st F r INFO vars

def ErrI (st : LogSt) (F : Str → List GoVal → Str) (r : GoVal → Str)
    (vars : List GoVal) : Option Written := write2log st F r ERROR vars

def WarnI (st : LogSt) (F : Str → List GoVal → Str) (r : GoVal → Str)
    (vars : List GoVal) : Option Written := write2log st F r WARN vars

def NoticeI (st : LogSt) (F : Str → List GoVal → Str) (r : GoVal → Str)
    (vars : List GoVal) : Option Written := write2log st F r NOTICE vars

def DebugI (st : LogSt) (F : Str → List GoVal → Str) (r : GoVal → Str)
    (vars : List GoVal) : Option Written := write2log st F r DEBUG vars

def TraceI (st : LogSt) (F : Str → List GoVal → Str) (r : GoVal → Str)
    (vars : List GoVal) : Option Written := write2log st F r TRACE vars

def AuxI (st : LogSt) (F : Str → List GoVal → Str) (r : GoVal → Str)
    (vars : List GoVal) : Option Written := write2log st F r AUX vars

def Aux2I (st : LogSt) (F : Str → List GoVal → Str) (r : GoVal → Str)
    (vars : List GoVal) : Option Written := write2log st F r AUX2 vars

def Aux3I (st : LogSt) (F : Str → List GoVal → Str) (r : GoVal → Str)
    (vars : List GoVal) : Option Written := write2log st F r AUX3 vars

def Aux4I (st : LogSt) (F : Str → List GoVal → Str) (r : GoVal → Str)
    (vars : List GoVal) : Option Written := write2log st F r AUX4 vars

def StdoutI (st : LogSt) (F : Str → List GoVal → Str) (r : GoVal → Str)
    (vars : List GoVal) : Option Written :=
  write2log st F r (print_txt ||| no_logging) vars

def StderrI (st : LogSt) (F : Str → List GoVal → Str) (r : GoVal → Str)
    (vars : List GoVal) : Option Written :=
  write2log st F r (stderr_txt ||| no_logging) vars

/-- `Flash` (nfo.go lines 339-343): a no-op unless `Animations` is set. -/
def FlashI (st : LogSt) (F : Str → List GoVal → Str) (r : GoVal → Str)
    (vars : List GoVal) : Option Written :=
  if st.animations then write2log st F r (flash_txt ||| no_logging) vars
  else none

/-- The eleven real (loggable) severity bits. -/
def realLevels : List Nat :=
  [INFO, ERROR, WARN, NOTICE, DEBUG, TRACE, FATAL, AUX, AUX2, AUX3, AUX4]

/-! ### Logger configuration updates (nfo.go lines 47-52, 185-265) -/

/-- Field selectors (nfo.go lines 47-52). -/
def textWriter : Nat := 1
def fileWriter : Nat := 2
def setTimestamp : Nat := 4
def setPrefixF : Nat := 8

/-- A value passed through `input interface{}` to `updateLogger`. -/
inductive CfgInput where
  | w (x : GoWriter)
  | b (x : Bool)
  | s (x : Str)
  deriving DecidableEq, Repr

/-- `input.(io.Writer)`: every writer value implements `io.Writer`. -/
def asWriter : CfgInput → Option GoWriter
  | .w x => some x
  | _ => none

/-- `input.(io.WriteCloser)`: succeeds only when the dynamic type also
implements `io.WriteCloser`. -/
def asWriteCloser : CfgInput → Option GoWriter
  | .w x => if x.isCloser then some x else none
  | _ => none

def asBool : CfgInput → Option Bool
  | .b x => some x
  | _ => none

def asString : CfgInput → Option Str
  | .s x => some x
  | _ => none

/-- `updateLogger` (nfo.go lines 185-220) over `l_map` as an association
list (one fixed iteration order; the claims proved below do not depend on
the order).  For each entry whose bit pattern is a subset of `flag` the
selected field is updated; a failed type assertion or an unknown `field`
returns early, leaving the remaining entries untouched. -/
def updateLogger : List (Nat × Logger) → Nat → Nat → CfgInput →
    List (Nat × Logger)
  | [], _, _, _ => []
  | (k, v) :: rest, flag, field, input =>
    if flag &&& k = k then
      if field = textWriter then
        match asWriter input with
        | some x => (k, { v with textout := x }) :: updateLogger rest flag field input
        | none => (k, v) :: rest
      else if field = fileWriter then
        match asWriteCloser input with
        | some x => (k, { v with fileout := x }) :: updateLogger rest flag field input
        | none => (k, v) :: rest
      else if field = setTimestamp then
        match asBool input with
        | some x => (k, { v with use_ts := x }) :: updateLogger rest flag field input
        | none => (k, v) :: rest
      else if field = setPrefixF then
        match asString input with
        | some x => (k, { v with pfx := x }) :: updateLogger rest flag field input
        | none => (k, v) :: rest
      else (k, v) :: rest
    else (k, v) :: updateLogger rest flag field input

/-- `SetFile` (nfo.go lines 263-265). -/
def SetFile (m : List (Nat × Logger)) (flag : Nat) (input : CfgInput) :
    List (Nat × Logger) :=
  updateLogger m flag fileWriter input

/-! ### The global defer registry (defer.go lines 13-120, 186-202)

Registered actions are identified by an opaque tag (`Nat`); the random
32-character ids of `Defer` are modelled as given strings together with the
freshness the generation loop guarantees. -/

/-- `globalDefer` (defer.go lines 20-24): the registration-order id list and
the id→action map (as an association list). -/
structure DeferState where
  ids : List String
  dmap : List (String × Nat)
  deriving DecidableEq, Repr

def emptyDeferState : DeferState := ⟨[], []⟩

/-- Go map assignment `m[k] = v`. -/
def mapSet : List (String × Nat) → String → Nat → List (String × Nat)
  | [], k, v => [(k, v)]
  | (k', v') :: rest, k, v =>
    if k' = k then (k, v) :: rest else (k', v') :: mapSet rest k v

/-- Go map lookup `m[k]`. -/
def mapGet : List (String × Nat) → String → Option Nat
  | [], _ => none
  | (k', v') :: rest, k => if k' = k then some v' else mapGet rest k

/-- Go map deletion `delete(m, k)`. -/
def mapDel (m : List (String × Nat)) (k : String) : List (String × Nat) :=
  m.filter (fun p => p.1 ≠ k)

/-- The registration step of `Defer` (defer.go lines 106-107): append the id
and store the action. -/
def deferAdd (st : DeferState) (id : String) (a : Nat) : DeferState :=
  { ids := st.ids ++ [id], dmap := mapSet st.dmap id a }

/-- The drain snapshot (defer.go lines 188-195): walk `ids` from the most
recently registered to the oldest and collect the mapped actions. -/
def drainSnapshot (st : DeferState) : List Nat :=
  st.ids.reverse.filterMap (mapGet st.dmap)

/-- A defer registry together with the invocation trace of its actions:
`invoked` lists the action tags in the order they were run. -/
structure DeferSys where
  st : DeferState
  invoked : List Nat
  deriving DecidableEq, Repr

def emptyDeferSys : DeferSys := ⟨emptyDeferState, []⟩

def registerD (s : DeferSys) (id : String) (a : Nat) : DeferSys :=
  { s with st := deferAdd s.st id a }

/-- The unregister closure returned by `Defer` (defer.go lines 109-119):
delete the id from the map, remove every occurrence of the id from `ids`,
then invoke the captured action `d` unconditionally. -/
def unregCall (s : DeferSys) (id : String) (a : Nat) : DeferSys :=
  { st := { ids := s.st.ids.filter (fun x => x ≠ id),
            dmap := mapDel s.st.dmap id },
    invoked := s.invoked ++ [a] }

/-- The drain sequence (defer.go lines 188-202): run the snapshot in order.
The map is not modified by the drain. -/
def drainD (s : DeferSys) : DeferSys :=
  { s with invoked := s.invoked ++ drainSnapshot s.st }

/-! ### Exit codes (defer.go lines 122-132, 174-181; nfo.go lines 402-414) -/

/-- The signals the coordinator distinguishes. -/
inductive GoSignal where
  | sigint | sighup | sigterm | sigkill | otherSig
  deriving DecidableEq, Repr

/-- The `switch s` of the signal goroutine (defer.go lines 174-181): the
conventional code for SIGINT/SIGHUP/SIGTERM, the prior `errCode` otherwise
(no case for `SIGKILL` or any other signal). -/
def signalExitCode (s : GoSignal) (errCode : Int) : Int :=
  match s with
  | .sigint => 130
  | .sighup => 129
  | .sigterm => 143
  | _ => errCode

/-- The code `Exit(exit_code)` terminates with (defer.go lines 122-132):
when a panic is being recovered the function logs the stack and calls
`os.Exit(1)`; otherwise, after the drain handshake, `os.Exit(exit_code)`. -/
def exitResolvedCode (panicking : Bool) (exit_code : Int) : Int :=
  if panicking then 1 else exit_code

/-- The code a `Fatal`-triggered shutdown terminates with (nfo.go line 408):
`os.Exit(1)` after the drain handshake. -/
def fatalResolvedCode : Int := 1

/-! ### Transfer monitor (src/unnamed/part_001)

The `tmon` flag word is a `BitFlag`; only eleven fixed bits are ever tested
or set on it, so it is embedded as a record of booleans.  `float64`
quantities are embedded as `ℚ`; `%.1f` rendering is an abstract parameter
`fmt1`. -/

/-- The flag bits of part_001 lines 68-80 as a record. -/
structure TFlags where
  leftToRight : Bool
  rightToLeft : Bool
  noRate : Bool
  maxWidth : Bool
  pbSummary : Bool
  noSummary : Bool
  internalF : Bool
  transActive : Bool
  transClosed : Bool
  transComplete : Bool
  transError : Bool
  deriving DecidableEq, Repr

/-- `tmon` (part_001 lines 280-292); the wrapped source and display names do
not affect the claims and are omitted. -/
structure Tmon where
  flags : TFlags
  total_size : Int
  transferred : Int
  offset : Int
  rate : String
  deriving DecidableEq, Repr

/-- `names` (part_001 lines 338-343). -/
def unitNames : List String := ["bps", "kbps", "mbps", "gbps"]

/-- The unit-scaling loop of `showRate` (part_001 lines 345-350):
`for sz >= 1000 && suffix < len(names)-1 { sz = sz / 1000; suffix++ }`,
written with the loop's remaining iteration budget (`3 - suffix`, exact
because of the guard `suffix < 3`) as structural fuel so that concrete
values reduce in the kernel. -/
def scaleRateAux : Nat → ℚ → Nat → ℚ × Nat
  | 0, sz, suffix => (sz, suffix)
  | fuel + 1, sz, suffix =>
    if 1000 ≤ sz ∧ suffix < 3 then scaleRateAux fuel (sz / 1000) (suffix + 1)
    else (sz, suffix)

def scaleRate (sz : ℚ) (suffix : Nat) : ℚ × Nat :=
  scaleRateAux (3 - suffix) sz suffix

/-- The elapsed-time clamp of `showRate` (part_001 lines 331-334):
`if since < 0.1 { since = 0.1 }`. -/
def goSince (elapsed : ℚ) : ℚ :=
  if elapsed < 1/10 then (1/10 : ℚ) else elapsed

/-- The raw rate of `showRate` (part_001 line 336):
`float64(transferred-t.offset) * 8 / since`. -/
def rawRate (t : Tmon) (elapsed : ℚ) : ℚ :=
  ((t.transferred - t.offset : Int) : ℚ) * 8 / goSince elapsed

/-- `showRate` (part_001 lines 324-369).  `elapsed` is
`time.Since(t.start_time).Seconds()`; `fmt1` models `fmt.Sprintf("%.1f", _)`.
Returns the rate string and the updated monitor. -/
def showRate (t : Tmon) (elapsed : ℚ) (fmt1 : ℚ → String) : String × Tmon :=
  if t.transferred = 0 ∨ t.flags.transComplete = true then (t.rate, t)
  else
    let sz := rawRate t elapsed
    let p := scaleRate sz 0
    let rate :=
      if p.1 ≠ 0 then fmt1 p.1 ++ unitNames.getD p.2 ""
      else if t.flags.transActive then "0.0bps" else "\x08"
    let t1 : Tmon := { t with rate := rate }
    let t2 : Tmon :=
      if t1.flags.transComplete = false ∧ t1.transferred + t1.offset = t1.total_size
      then { t1 with flags := { t1.flags with transComplete := true } }
      else t1
    (t2.rate, t2)

/-- `Seek` (part_001 lines 234-239): both `transferred` and `offset` are set
to the new position returned by the underlying source. -/
def tmonSeek (t : Tmon) (o : Int) : Tmon :=
  { t with transferred := o, offset := o }

/-- `Read` (part_001 lines 243-256): add the bytes read, and on an error
mark the stream closed and errored unless it is already closed.  (The
`if tm.transferred == 0 { return }` branch returns without further state
change, as does the fall-through, so it adds nothing to the state effect.) -/
def tmonRead (t : Tmon) (n : Int) (isErr : Bool) : Tmon :=
  let t' : Tmon := { t with transferred := t.transferred + n }
  if isErr then
    if t'.flags.transClosed then t'
    else { t' with flags := { t'.flags with transClosed := true, transError := true } }
  else t'

/-- `Close` (part_001 lines 259-265): mark closed; the returned boolean is
whether the summary `Log(tm.showTransfer(true))` call is made, i.e.
`(tm.transferred > 0 || tm.total_size == 0) && !tm.flag.Has(NoSummary)`. -/
def tmonClose (t : Tmon) : Tmon × Bool :=
  let t' : Tmon := { t with flags := { t.flags with transClosed := true } }
  (t', decide ((0 < t'.transferred ∨ t'.total_size = 0) ∧
               t'.flags.noSummary = false))

/-! ### The shutdown state machine (nfo.go lines 402-414; defer.go lines
122-132, 154-219)

An interleaving model of the concurrent triggers and the single signal
goroutine.  The atomic actions of the Go code become transitions:

* `Fatal` (nfo.go 402-414): CAS `fatal_triggered` 0→1; the winner sends
  `os.Kill` on the unbuffered `signalChan` and then waits on `exit_lock`;
  every loser blocks forever on a fresh channel (`halted`).
* `Exit` (defer.go 122-132): unconditional atomic store `fatal_triggered :=
  2`, then the same send-and-wait.
* an OS signal delivery is one pending send on `signalChan`.
* the goroutine of `init` (defer.go 158-219) performs one receive (the CAS
  0→2 of line 172 included), runs the drain sequence once, and then either
  hands `exit_lock` to one waiting trigger or calls `os.Exit` itself.

A delivery vetoed by a registered signal callback (defer.go 166-170) makes
the goroutine continue waiting and never becomes a shutdown trigger; the
model's `sig` processes are the approved deliveries.

Since the process exit ends every goroutine, allowing further transitions
after an exit over-approximates the real behaviours; the properties proved
are safety properties, so this is sound. -/

/-- The kind of a shutdown trigger. -/
inductive TKind where
  | fatal | exitc | sig
  deriving DecidableEq, Repr

/-- Program counter of one trigger. -/
inductive TPc where
  | start       -- about to run
  | sending     -- blocked sending on `signalChan`
  | waitingExit -- send completed, blocked receiving `exit_lock`
  | done        -- reached `os.Exit`, or (for a signal) fully delivered
  | halted      -- a losing `Fatal`: blocked forever on `halt`
  deriving DecidableEq, Repr

/-- Program counter of the signal goroutine. -/
inductive CPc where
  | waiting     -- blocked receiving on `signalChan`
  | draining    -- received one message, drain sequence not yet run
  | finished    -- drain sequence has run
  | terminated  -- handed off `exit_lock`, or called `os.Exit` itself
  deriving DecidableEq, Repr

/-- The shutdown coordinator state: the `fatal_triggered` flag, the trigger
processes, the signal goroutine, and how many times the drain sequence has
run. -/
structure Sys where
  flag : Nat
  trig : List (TKind × TPc)
  consumer : CPc
  drains : Nat
  deriving DecidableEq, Repr

/-- Initial state: `fatal_triggered = 0`, the goroutine blocked on
`signalChan`, all triggers yet to run. -/
def initSys (ks : List TKind) : Sys :=
  ⟨0, ks.map (fun k => (k, TPc.start)), CPc.waiting, 0⟩

/-- One atomic transition of the shutdown coordinator. -/
inductive Step : Sys → Sys → Prop where
  /-- `Fatal`: the CAS 0→1 succeeds (nfo.go line 403). -/
  | fatalWin (s : Sys) (i : Nat)
      (h : s.trig.get? i = some (TKind.fatal, TPc.start)) (hf : s.flag = 0) :
      Step s { s with flag := 1, trig := s.trig.set i (TKind.fatal, TPc.sending) }
  /-- `Fatal`: the CAS fails; the caller blocks forever (nfo.go 410-413). -/
  | fatalLose (s : Sys) (i : Nat)
      (h : s.trig.get? i = some (TKind.fatal, TPc.start)) (hf : s.flag ≠ 0) :
      Step s { s with trig := s.trig.set i (TKind.fatal, TPc.halted) }
  /-- `Exit`: the store `fatal_triggered := 2` (defer.go line 128). -/
  | exitStore (s : Sys) (i : Nat)
      (h : s.trig.get? i = some (TKind.exitc, TPc.start)) :
      Step s { s with flag := 2, trig := s.trig.set i (TKind.exitc, TPc.sending) }
  /-- An OS signal becomes a pending send on `signalChan`. -/
  | sigArrive (s : Sys) (i : Nat)
      (h : s.trig.get? i = some (TKind.sig, TPc.start)) :
      Step s { s with trig := s.trig.set i (TKind.sig, TPc.sending) }
  /-- The goroutine receives from a `Fatal`/`Exit` sender, which then waits
  on `exit_lock`; the handler CAS 0→2 (defer.go lines 160, 172). -/
  | syncFE (s : Sys) (i : Nat) (k : TKind)
      (h : s.trig.get? i = some (k, TPc.sending)) (hk : k ≠ TKind.sig)
      (hc : s.consumer = CPc.waiting) :
      Step s { s with trig := s.trig.set i (k, TPc.waitingExit),
                      consumer := CPc.draining,
                      flag := if s.flag = 0 then 2 else s.flag }
  /-- The goroutine receives an OS signal delivery. -/
  | syncSig (s : Sys) (i : Nat)
      (h : s.trig.get? i = some (TKind.sig, TPc.sending))
      (hc : s.consumer = CPc.waiting) :
      Step s { s with trig := s.trig.set i (TKind.sig, TPc.done),
                      consumer := CPc.draining,
                      flag := if s.flag = 0 then 2 else s.flag }
  /-- The drain sequence runs (defer.go lines 186-211). -/
  | drainRun (s : Sys) (hc : s.consumer = CPc.draining) :
      Step s { s with consumer := CPc.finished, drains := s.drains + 1 }
  /-- `exit_lock <- struct{}{}` succeeds: one waiting trigger resumes and
  calls `os.Exit` (defer.go line 215). -/
  | handoff (s : Sys) (i : Nat) (k : TKind)
      (h : s.trig.get? i = some (k, TPc.waitingExit))
      (hc : s.consumer = CPc.finished) :
      Step s { s with trig := s.trig.set i (k, TPc.done),
                      consumer := CPc.terminated }
  /-- The `default` branch: the goroutine itself calls `os.Exit(errCode)`
  (defer.go line 217). -/
  | exitSelf (s : Sys) (hc : s.consumer = CPc.finished) :
      Step s { s with consumer := CPc.terminated }

/-- Reflexive-transitive closure of `Step`. -/
inductive Reachable (s0 : Sys) : Sys → Prop where
  | refl : Reachable s0 s0
  | tail {s t : Sys} : Reachable s0 s → Step s t → Reachable s0 t

/-- Completed the `signalChan` handshake. -/
def syncP : TKind × TPc → Bool :=
  fun p => decide (p.2 = TPc.waitingExit ∨ p.2 = TPc.done)

/-- A `Fatal` caller whose CAS succeeded (advanced past `start` without
halting). -/
def fatalP : TKind × TPc → Bool :=
  fun p => decide (p.1 = TKind.fatal ∧ p.2 ≠ TPc.start ∧ p.2 ≠ TPc.halted)

/-- Number of triggers that have completed the `signalChan` handshake. -/
def syncedCount (s : Sys) : Nat := s.trig.countP syncP

/-- Number of `Fatal` callers whose CAS succeeded. -/
def fatalWinners (s : Sys) : Nat := s.trig.countP fatalP

/-- The inductive invariant of the shutdown coordinator. -/
def Inv (s : Sys) : Prop :=
  (s.drains = if s.consumer = CPc.finished ∨ s.consumer = CPc.terminated
              then 1 else 0) ∧
  (syncedCount s = if s.consumer = CPc.waiting then 0 else 1) ∧
  fatalWinners s ≤ 1 ∧
  (s.flag = 0 → fatalWinners s = 0)

theorem get?_set_of_ne {α : Type} (l : List α) (i j : Nat) (b : α)
    (hij : i ≠ j) : (l.set j b).get? i = l.get? i := by
  induction l generalizing i j with
  | nil => simp
  | cons x xs ih =>
    cases j with
    | zero =>
      cases i with
      | zero => exact absurd rfl hij
      | succ i => simp
    | succ j =>
      cases i with
      | zero => simp
      | succ i => simpa using ih i j (by omega)

theorem get?_set_self {α : Type} (l : List α) (i : Nat) (a b : α)
    (h : l.get? i = some a) : (l.set i b).get? i = some b := by
  induction l generalizing i with
  | nil => simp at h
  | cons x xs ih =>
    cases i with
    | zero => simp
    | succ i => simpa using ih i (by simpa using h)

theorem countP_set {α : Type} (p : α → Bool) (l : List α) (i : Nat) (a b : α)
    (h : l.get? i = some a) :
    (l.set i b).countP p + (if p a then 1 else 0) =
      l.countP p + (if p b then 1 else 0) := by
  induction l generalizing i with
  | nil => simp at h
  | cons x xs ih =>
    cases i with
    | zero =>
      have hx : x = a := by simpa using h
      subst hx
      simp [List.countP_cons]
      omega
    | succ i =>
      have := ih i (by simpa using h)
      simp [List.countP_cons]
      omega

theorem countP_map_start {p : TKind × TPc → Bool} (ks : List TKind)
    (hp : ∀ k, p (k, TPc.start) = false) :
    ((ks.map (fun k => (k, TPc.start))).countP p) = 0 := by
  induction ks with
  | nil => simp
  | cons k ks ih => simp [List.countP_cons, hp, ih]

theorem inv_init (ks : List TKind) : Inv (initSys ks) := by
  have hz : syncedCount (initSys ks) = 0 :=
    countP_map_start ks (fun k => by cases k <;> rfl)
  have hf : fatalWinners (initSys ks) = 0 :=
    countP_map_start ks (fun k => by cases k <;> rfl)
  exact ⟨by simp [initSys], by simpa [initSys] using hz,
    by omega, fun _ => hf⟩

theorem inv_step {s t : Sys} (hs : Inv s) (hst : Step s t) : Inv t := by
  obtain ⟨h1, h2, h3, h4⟩ := hs
  cases hst with
  | fatalWin i h hf =>
    have hsync := countP_set syncP s.trig i _ (TKind.fatal, TPc.sending) h
    have hfat := countP_set fatalP s.trig i _ (TKind.fatal, TPc.sending) h
    have hf0 := h4 hf
    simp only [show syncP (TKind.fatal, TPc.start) = false from rfl,
      show syncP (TKind.fatal, TPc.sending) = false from rfl] at hsync
    simp only [show fatalP (TKind.fatal, TPc.start) = false from rfl,
      show fatalP (TKind.fatal, TPc.sending) = true from rfl] at hfat
    simp at hsync hfat
    refine ⟨by simpa using h1, ?_, ?_, ?_⟩
    · simp only [syncedCount] at h2 ⊢
      simpa [hsync] using h2
    · simp only [fatalWinners] at hf0 ⊢
      simp only [syncedCount] at *
      omega
    · intro hc; simp at hc
  | fatalLose i h hf =>
    have hsync := countP_set syncP s.trig i _ (TKind.fatal, TPc.halted) h
    have hfat := countP_set fatalP s.trig i _ (TKind.fatal, TPc.halted) h
    simp only [show syncP (TKind.fatal, TPc.start) = false from rfl,
      show syncP (TKind.fatal, TPc.halted) = false from rfl] at hsync
    simp only [show fatalP (TKind.fatal, TPc.start) = false from rfl,
      show fatalP (TKind.fatal, TPc.halted) = false from rfl] at hfat
    simp at hsync hfat
    refine ⟨by simpa using h1, ?_, ?_, ?_⟩
    · simp only [syncedCount] at h2 ⊢
      simpa [hsync] using h2
    · simp only [fatalWinners] at h3 ⊢
      omega
    · intro hc
      simp at hc
      exact absurd hc hf
  | exitStore i h =>
    have hsync := countP_set syncP s.trig i _ (TKind.exitc, TPc.sending) h
    have hfat := countP_set fatalP s.trig i _ (TKind.exitc, TPc.sending) h
    simp only [show syncP (TKind.exitc, TPc.start) = false from rfl,
      show syncP (TKind.exitc, TPc.sending) = false from rfl] at hsync
    simp only [show fatalP (TKind.exitc, TPc.start) = false from rfl,
      show fatalP (TKind.exitc, TPc.sending) = false from rfl] at hfat
    simp at hsync hfat
    refine ⟨by simpa using h1, ?_, ?_, ?_⟩
    · simp only [syncedCount] at h2 ⊢
      simpa [hsync] using h2
    · simp only [fatalWinners] at h3 ⊢
      omega
    · intro hc; simp at hc
  | sigArrive i h =>
    have hsync := countP_set syncP s.trig i _ (TKind.sig, TPc.sending) h
    have hfat := countP_set fatalP s.trig i _ (TKind.sig, TPc.sending) h
    simp only [show syncP (TKind.sig, TPc.start) = false from rfl,
      show syncP (TKind.sig, TPc.sending) = false from rfl] at hsync
    simp only [show fatalP (TKind.sig, TPc.start) = false from rfl,
      show fatalP (TKind.sig, TPc.sending) = false from rfl] at hfat
    simp at hsync hfat
    refine ⟨by simpa using h1, ?_, ?_, ?_⟩
    · simp only [syncedCount] at h2 ⊢
      simpa [hsync] using h2
    · simp only [fatalWinners] at h3 ⊢
      omega
    · intro hc
      simp at hc
      have := h4 hc
      simp only [fatalWinners] at this ⊢
      omega
  | syncFE i k h hk hc =>
    have hsync := countP_set syncP s.trig i _ (k, TPc.waitingExit) h
    have hfat := countP_set fatalP s.trig i _ (k, TPc.waitingExit) h
    simp only [show syncP (k, TPc.sending) = false by cases k <;> rfl,
      show syncP (k, TPc.waitingExit) = true by cases k <;> rfl] at hsync
    rw [show fatalP (k, TPc.sending) = fatalP (k, TPc.waitingExit) by
      cases k <;> rfl] at hfat
    simp at hsync
    refine ⟨by rw [hc] at h1; simp at h1; simpa using h1, ?_, ?_, ?_⟩
    · simp only [syncedCount] at h2 ⊢
      rw [hc] at h2
      have h2z : List.countP syncP s.trig = 0 := by simpa using h2
      simp [hsync, h2z]
    · simp only [fatalWinners] at h3 ⊢
      omega
    · intro hcf
      simp at hcf
      split at hcf <;> omega
  | syncSig i h hc =>
    have hsync := countP_set syncP s.trig i _ (TKind.sig, TPc.done) h
    have hfat := countP_set fatalP s.trig i _ (TKind.sig, TPc.done) h
    simp only [show syncP (TKind.sig, TPc.sending) = false from rfl,
      show syncP (TKind.sig, TPc.done) = true from rfl] at hsync
    simp only [show fatalP (TKind.sig, TPc.sending) = false from rfl,
      show fatalP (TKind.sig, TPc.done) = false from rfl] at hfat
    simp at hsync hfat
    refine ⟨by rw [hc] at h1; simp at h1; simpa using h1, ?_, ?_, ?_⟩
    · simp only [syncedCount] at h2 ⊢
      rw [hc] at h2
      have h2z : List.countP syncP s.trig = 0 := by simpa using h2
      simp [hsync, h2z]
    · simp only [fatalWinners] at h3 ⊢
      omega
    · intro hcf
      simp at hcf
      split at hcf <;> omega
  | drainRun hc =>
    rw [hc] at h1
    simp at h1
    refine ⟨by simp [h1], ?_, by simpa using h3, by simpa using h4⟩
    · simp only [syncedCount] at h2 ⊢
      rw [hc] at h2
      simpa using h2
  | handoff i k h hc =>
    have hsync := countP_set syncP s.trig i _ (k, TPc.done) h
    have hfat := countP_set fatalP s.trig i _ (k, TPc.done) h
    simp only [show syncP (k, TPc.waitingExit) = true by cases k <;> rfl,
      show syncP (k, TPc.done) = true by cases k <;> rfl] at hsync
    rw [show fatalP (k, TPc.waitingExit) = fatalP (k, TPc.done) by
      cases k <;> rfl] at hfat
    simp at hsync
    rw [hc] at h1
    simp at h1
    refine ⟨by simpa using h1, ?_, ?_, ?_⟩
    · simp only [syncedCount] at h2 ⊢
      rw [hc] at h2
      have h2o : List.countP syncP s.trig = 1 := by simpa using h2
      simp [hsync, h2o]
    · simp only [fatalWinners] at h3 ⊢
      omega
    · intro hcf
      simp at hcf
      have := h4 hcf
      simp only [fatalWinners] at this ⊢
      omega
  | exitSelf hc =>
    rw [hc] at h1
    simp at h1
    refine ⟨by simpa using h1, ?_, by simpa using h3, by simpa using h4⟩
    · simp only [syncedCount] at h2 ⊢
      rw [hc] at h2
      simpa using h2

theorem inv_reachable {ks : List TKind} {s : Sys}
    (h : Reachable (initSys ks) s) : Inv s := by
  induction h with
  | refl => exact inv_init ks
  | tail _ hst ih => exact inv_step ih hst

/-- A halted (losing) `Fatal` caller can never take another step: the `halt`
channel is never signalled. -/
theorem step_preserves_halted {s t : Sys} (hst : Step s t) (i : Nat)
    (k : TKind) (h : s.trig.get? i = some (k, TPc.halted)) :
    t.trig.get? i = some (k, TPc.halted) := by
  cases hst with
  | fatalWin j hj hf =>
    have hne : i ≠ j := by
      intro he; subst he; rw [h] at hj; simp at hj
    rw [get?_set_of_ne _ i j _ hne]
    exact h
  | fatalLose j hj hf =>
    have hne : i ≠ j := by
      intro he; subst he; rw [h] at hj; simp at hj
    rw [get?_set_of_ne _ i j _ hne]
    exact h
  | exitStore j hj =>
    have hne : i ≠ j := by
      intro he; subst he; rw [h] at hj; simp at hj
    rw [get?_set_of_ne _ i j _ hne]
    exact h
  | sigArrive j hj =>
    have hne : i ≠ j := by
      intro he; subst he; rw [h] at hj; simp at hj
    rw [get?_set_of_ne _ i j _ hne]
    exact h
  | syncFE j k' hj hk hc =>
    have hne : i ≠ j := by
      intro he; subst he; rw [h] at hj; simp at hj
    rw [get?_set_of_ne _ i j _ hne]
    exact h
  | syncSig j hj hc =>
    have hne : i ≠ j := by
      intro he; subst he; rw [h] at hj; simp at hj
    rw [get?_set_of_ne _ i j _ hne]
    exact h
  | drainRun hc => simpa using h
  | handoff j k' hj hc =>
    have hne : i ≠ j := by
      intro he; subst he; rw [h] at hj; simp at hj
    rw [get?_set_of_ne _ i j _ hne]
    exact h
  | exitSelf hc => simpa using h

/-- The signal goroutine never returns to its receive: once it has left
`waiting` it stays away. -/
theorem step_consumer {s t : Sys} (hst : Step s t)
    (hcw : s.consumer ≠ CPc.waiting) : t.consumer ≠ CPc.waiting := by
  cases hst <;> simp_all

/-- After the goroutine has left its receive, a trigger blocked sending on
`signalChan` stays blocked forever: nothing receives again. -/
theorem step_preserves_stuck_sending {s t : Sys} (hst : Step s t)
    (hcw : s.consumer ≠ CPc.waiting) (i : Nat) (k : TKind)
    (h : s.trig.get? i = some (k, TPc.sending)) :
    t.trig.get? i = some (k, TPc.sending) := by
  cases hst with
  | fatalWin j hj hf =>
    have hne : i ≠ j := by
      intro he; subst he; rw [h] at hj; simp at hj
    rw [get?_set_of_ne _ i j _ hne]
    exact h
  | fatalLose j hj hf =>
    have hne : i ≠ j := by
      intro he; subst he; rw [h] at hj; simp at hj
    rw [get?_set_of_ne _ i j _ hne]
    exact h
  | exitStore j hj =>
    have hne : i ≠ j := by
      intro he; subst he; rw [h] at hj; simp at hj
    rw [get?_set_of_ne _ i j _ hne]
    exact h
  | sigArrive j hj =>
    have hne : i ≠ j := by
      intro he; subst he; rw [h] at hj; simp at hj
    rw [get?_set_of_ne _ i j _ hne]
    exact h
  | syncFE j k' hj hk hc => exact absurd hc hcw
  | syncSig j hj hc => exact absurd hc hcw
  | drainRun hc => simpa using h
  | handoff j k' hj hc =>
    have hne : i ≠ j := by
      intro he; subst he; rw [h] at hj; simp at hj
    rw [get?_set_of_ne _ i j _ hne]
    exact h
  | exitSelf hc => simpa using h

/-! ### Claim theorems -/

/-- C1.  For any number of concurrent `Fatal`, `Exit`, or delivered-signal
triggers, in every reachable state of the shutdown coordinator the drain
sequence has run at most once, at most one trigger has performed the
`signalChan` handshake that starts the shutdown transition, at most one
`Fatal` caller has won the compare-and-swap on the fatal flag, the drain has
run exactly once by the time the coordinator goroutine finishes, and a
trigger that lost (blocked on `halt`, or left pending on `signalChan` after
the goroutine stopped receiving) stays blocked at every subsequent step and
so never returns to its caller. -/
theorem fatal_shutdown_at_most_once (ks : List TKind) (s : Sys)
    (hr : Reachable (initSys ks) s) :
    s.drains ≤ 1 ∧
    syncedCount s ≤ 1 ∧
    fatalWinners s ≤ 1 ∧
    ((s.consumer = CPc.finished ∨ s.consumer = CPc.terminated) →
      s.drains = 1) ∧
    (∀ t, Step s t →
      (∀ i k, s.trig.get? i = some (k, TPc.halted) →
        t.trig.get? i = some (k, TPc.halted)) ∧
      (s.consumer ≠ CPc.waiting →
        t.consumer ≠ CPc.waiting ∧
        ∀ i k, s.trig.get? i = some (k, TPc.sending) →
          t.trig.get? i = some (k, TPc.sending))) := by
  obtain ⟨h1, h2, h3, h4⟩ := inv_reachable hr
  refine ⟨?_, ?_, h3, ?_, ?_⟩
  · rw [h1]; split <;> omega
  · rw [h2]; split <;> omega
  · intro hc; rw [h1, if_pos hc]
  · intro t hst
    exact ⟨fun i k h => step_preserves_halted hst i k h,
      fun hcw => ⟨step_consumer hst hcw,
        fun i k h => step_preserves_stuck_sending hst hcw i k h⟩⟩

/-- Witness for C1: the initial state with two concurrent `Fatal` triggers
and one `Exit` trigger is reachable, and the conclusions hold there. -/
theorem fatal_shutdown_at_most_once_witness :
    let s := initSys [TKind.fatal, TKind.fatal, TKind.exitc]
    s.drains ≤ 1 ∧
    syncedCount s ≤ 1 ∧
    fatalWinners s ≤ 1 ∧
    ((s.consumer = CPc.finished ∨ s.consumer = CPc.terminated) →
      s.drains = 1) ∧
    (∀ t, Step s t →
      (∀ i k, s.trig.get? i = some (k, TPc.halted) →
        t.trig.get? i = some (k, TPc.halted)) ∧
      (s.consumer ≠ CPc.waiting →
        t.consumer ≠ CPc.waiting ∧
        ∀ i k, s.trig.get? i = some (k, TPc.sending) →
          t.trig.get? i = some (k, TPc.sending))) :=
  fatal_shutdown_at_most_once [TKind.fatal, TKind.fatal, TKind.exitc]
    (initSys [TKind.fatal, TKind.fatal, TKind.exitc]) Reachable.refl

/-- C2.  Cleanup actions registered via `Defer` in order A, B, C are
snapshotted by the drain sequence in reverse registration order C, B, A, and
the drain then invokes them in exactly that order. -/
theorem defer_drain_lifo (ia ib ic : String) (a b c : Nat)
    (hab : ia ≠ ib) (hac : ia ≠ ic) (hbc : ib ≠ ic) :
    drainSnapshot (deferAdd (deferAdd (deferAdd emptyDeferState ia a) ib b) ic c)
      = [c, b, a] ∧
    (drainD (registerD (registerD (registerD emptyDeferSys ia a) ib b) ic c)).invoked
      = [c, b, a] := by
  constructor <;>
    simp [drainSnapshot, deferAdd, emptyDeferState, mapSet, mapGet,
      drainD, registerD, emptyDeferSys, hab, hac, hbc]

/-- Witness for C2 at three concrete distinct ids. -/
theorem defer_drain_lifo_witness :
    drainSnapshot (deferAdd (deferAdd (deferAdd emptyDeferState "a" 1) "b" 2) "c" 3)
      = [3, 2, 1] ∧
    (drainD (registerD (registerD (registerD emptyDeferSys "a" 1) "b" 2) "c" 3)).invoked
      = [3, 2, 1] :=
  defer_drain_lifo "a" "b" "c" 1 2 3 (by decide) (by decide) (by decide)

/-- C3 counterexample.  Register one action, run the drain (which invokes
it), then call the returned unregister function: the action is invoked a
second time, refuting "invoked at most once in total". -/
theorem unregister_double_invoke_counterexample :
    (unregCall (drainD (registerD emptyDeferSys "x" 7)) "x" 7).invoked = [7, 7] ∧
    ¬ ((unregCall (drainD (registerD emptyDeferSys "x" 7)) "x" 7).invoked.count 7 ≤ 1) := by
  decide

/-- C3 amended.  The unregister closure removes the action from the registry
and invokes it unconditionally: calling it before the drain yields exactly
one invocation in total (the drain no longer sees the action), while calling
it after the drain has executed the action yields a second invocation. -/
theorem unregister_invokes_unconditionally (id : String) (a : Nat) :
    (drainD (unregCall (registerD emptyDeferSys id a) id a)).invoked = [a] ∧
    (unregCall (drainD (registerD emptyDeferSys id a)) id a).invoked = [a, a] := by
  constructor <;>
    simp [registerD, emptyDeferSys, emptyDeferState, deferAdd, drainD,
      unregCall, drainSnapshot, mapSet, mapGet, mapDel]

/-- C4 counterexample.  Two non-string values 1 and 2 dispatch to the output
`12`: no `", "` separator appears between the first two values, refuting
"every adjacent pair of values is separated by `, `". -/
theorem dispatch_comma_join_counterexample :
    fprintf (fun s _ => s) goShow [GoVal.intV 1, GoVal.intV 2] = "12".data ∧
    fprintf (fun s _ => s) goShow [GoVal.intV 1, GoVal.intV 2]
      ≠ "1".data ++ ", ".data ++ "2".data := by
  decide

/-- C4 amended.  A single `[]byte` argument passes through unchanged; with
two or more arguments whose first is a string, the string is applied as a
format template to the remaining arguments; otherwise the output is the
first value's rendering immediately followed by the comma-join of the
remaining values — so `", "` separates every adjacent pair except the first
two values, which are not separated. -/
theorem dispatch_formatting (F : Str → List GoVal → Str) (r : GoVal → Str) :
    (∀ b, fprintf F r [GoVal.bytes b] = b) ∧
    (∀ s v rest, fprintf F r (GoVal.str s :: v :: rest) = F s (v :: rest)) ∧
    (∀ b w rest, fprintf F r (GoVal.bytes b :: w :: rest)
        = r (GoVal.bytes b) ++ sepJoin r (w :: rest)) ∧
    (∀ n w rest, fprintf F r (GoVal.intV n :: w :: rest)
        = r (GoVal.intV n) ++ sepJoin r (w :: rest)) := by
  refine ⟨fun b => rfl, fun s v rest => rfl, fun b w rest => ?_, fun n w rest => ?_⟩
  · simpa [fprintf] using joinLoop_eq r (GoVal.bytes b) w rest
  · simpa [fprintf] using joinLoop_eq r (GoVal.intV n) w rest

/-- C6 counterexample.  `Exit(5)` called while a panic is being recovered
terminates with exit code 1, not the caller-supplied 5, refuting "Exit(code)
always terminates with the caller-supplied code". -/
theorem exit_code_panic_counterexample :
    exitResolvedCode true 5 = 1 ∧ exitResolvedCode true 5 ≠ 5 := by
  decide

/-- C6 amended.  A shutdown approved for a delivered signal resolves exit
code 130 for SIGINT, 129 for SIGHUP, 143 for SIGTERM and leaves the prior
code unchanged for SIGKILL or any other signal; `Exit(code)` terminates with
the caller-supplied code except when invoked during panic recovery, where it
terminates with code 1; a `Fatal`-triggered shutdown terminates with code 1. -/
theorem exit_code_resolution (prior code : Int) :
    signalExitCode GoSignal.sigint prior = 130 ∧
    signalExitCode GoSignal.sighup prior = 129 ∧
    signalExitCode GoSignal.sigterm prior = 143 ∧
    signalExitCode GoSignal.sigkill prior = prior ∧
    signalExitCode GoSignal.otherSig prior = prior ∧
    exitResolvedCode false code = code ∧
    fatalResolvedCode = 1 := by
  simp [signalExitCode, exitResolvedCode, fatalResolvedCode]

theorem updateLogger_fileWriter_noncloser (m : List (Nat × Logger))
    (flag : Nat) (x : GoWriter) (hx : x.isCloser = false) :
    updateLogger m flag fileWriter (CfgInput.w x) = m := by
  induction m with
  | nil => rfl
  | cons p rest ih =>
    obtain ⟨k, v⟩ := p
    by_cases hk : flag &&& k = k
    · simp [updateLogger, hk, textWriter, fileWriter, asWriteCloser, hx]
    · simp [updateLogger, hk, ih]

theorem updateLogger_nomatch (m : List (Nat × Logger)) (flag field : Nat)
    (input : CfgInput) (h : ∀ p ∈ m, flag &&& p.1 ≠ p.1) :
    updateLogger m flag field input = m := by
  induction m with
  | nil => rfl
  | cons p rest ih =>
    obtain ⟨k, v⟩ := p
    have hk : flag &&& k ≠ k := h (k, v) (by simp)
    simp [updateLogger, hk]
    exact ih (fun q hq => h q (by simp [hq]))

/-- C10.  A malformed configuration call leaves the logger map unchanged:
`SetFile` with a writer whose dynamic type does not implement
`io.WriteCloser` is a no-op, and any update whose level mask matches no
registered severity entry is a no-op — in either case no logger's prefix,
text destination, file destination, or timestamp flag changes. -/
theorem malformed_config_noop (m : List (Nat × Logger)) (flag : Nat) :
    (∀ x : GoWriter, x.isCloser = false →
      SetFile m flag (CfgInput.w x) = m) ∧
    (∀ field input, (∀ p ∈ m, flag &&& p.1 ≠ p.1) →
      updateLogger m flag field input = m) :=
  ⟨fun x hx => updateLogger_fileWriter_noncloser m flag x hx,
   fun field input h => updateLogger_nomatch m flag field input h⟩

/-- A sample two-entry logger map for the C10 witness. -/
def sampleLoggerMap : List (Nat × Logger) :=
  [(INFO, ⟨[], ⟨1, false⟩, ⟨2, true⟩, true⟩),
   (ERROR, ⟨"[ERROR] ".data, ⟨1, false⟩, ⟨2, true⟩, true⟩)]

/-- Witness for C10: a non-`WriteCloser` `SetFile` on a mask matching both
entries, and a timestamp update on a mask matching no entry. -/
theorem malformed_config_noop_witness :
    SetFile sampleLoggerMap 3 (CfgInput.w ⟨9, false⟩) = sampleLoggerMap ∧
    updateLogger sampleLoggerMap 8 setTimestamp (CfgInput.b true)
      = sampleLoggerMap :=
  ⟨(malformed_config_noop sampleLoggerMap 3).1 ⟨9, false⟩ rfl,
   (malformed_config_noop sampleLoggerMap 8).2 setTimestamp (CfgInput.b true)
     (by decide)⟩

theorem scaleRate_bps {sz : ℚ} (h : sz < 1000) : scaleRate sz 0 = (sz, 0) := by
  have h' : ¬(1000 ≤ sz) := not_le.mpr h
  simp [scaleRate, scaleRateAux, h']

theorem scaleRate_kbps {sz : ℚ} (h1 : 1000 ≤ sz) (h2 : sz < 1000000) :
    scaleRate sz 0 = (sz / 1000, 1) := by
  have ha : ¬(1000 ≤ sz / 1000) := by
    rw [not_le, div_lt_iff₀ (by norm_num : (0:ℚ) < 1000)]
    linarith
  simp [scaleRate, scaleRateAux, h1, ha]

theorem scaleRate_mbps {sz : ℚ} (h1 : 1000000 ≤ sz) (h2 : sz < 1000000000) :
    scaleRate sz 0 = (sz / 1000000, 2) := by
  have hA : (1000 : ℚ) ≤ sz := by linarith
  have hB : (1000 : ℚ) ≤ sz / 1000 := by
    rw [le_div_iff₀ (by norm_num : (0:ℚ) < 1000)]
    linarith
  have hC : ¬((1000 : ℚ) ≤ sz / 1000 / 1000) := by
    rw [not_le, div_lt_iff₀ (by norm_num : (0:ℚ) < 1000),
      div_lt_iff₀ (by norm_num : (0:ℚ) < 1000)]
    linarith
  have hD : sz / 1000 / 1000 = sz / 1000000 := by
    rw [div_div]
    norm_num
  have hred : scaleRate sz 0 = (sz / 1000 / 1000, 2) := by
    simp [scaleRate, scaleRateAux, hA, hB, hC]
  rw [hred, hD]

theorem scaleRate_gbps {sz : ℚ} (h1 : 1000000000 ≤ sz) :
    scaleRate sz 0 = (sz / 1000000000, 3) := by
  have hA : (1000 : ℚ) ≤ sz := by linarith
  have hB : (1000 : ℚ) ≤ sz / 1000 := by
    rw [le_div_iff₀ (by norm_num : (0:ℚ) < 1000)]
    linarith
  have hC : (1000 : ℚ) ≤ sz / 1000 / 1000 := by
    rw [le_div_iff₀ (by norm_num : (0:ℚ) < 1000),
      le_div_iff₀ (by norm_num : (0:ℚ) < 1000)]
    linarith
  have hD : sz / 1000 / 1000 / 1000 = sz / 1000000000 := by
    rw [div_div, div_div]
    norm_num
  have hred : scaleRate sz 0 = (sz / 1000 / 1000 / 1000, 3) := by
    simp [scaleRate, scaleRateAux, hA, hB, hC]
  rw [hred, hD]

theorem goSince_eq_max (elapsed : ℚ) : goSince elapsed = max elapsed (1/10) := by
  unfold goSince
  rcases lt_or_le elapsed (1/10 : ℚ) with h | h
  · rw [if_pos h, max_eq_right (le_of_lt h)]
  · rw [if_neg (not_lt.mpr h), max_eq_left h]

theorem goSince_pos (elapsed : ℚ) : 0 < goSince elapsed := by
  unfold goSince
  split
  · norm_num
  · rename_i hx
    have := not_lt.mp hx
    linarith

theorem rate_ite (c : Prop) [Decidable c] (a b : Tmon) :
    (if c then a else b).rate = if c then a.rate else b.rate :=
  apply_ite Tmon.rate c a b

theorem flags_ite (c : Prop) [Decidable c] (a b : Tmon) :
    (if c then a else b).flags = if c then a.flags else b.flags :=
  apply_ite Tmon.flags c a b

/-- The monitor of the C7 counterexample: a 200-byte transfer that sought to
offset 100 and whose absolute position `transferred` has reached
`total_size` (as `TransferMonitor` would create it, after `Seek(100)` and
reads totalling 100 bytes). -/
def c7mon : Tmon :=
  ⟨⟨true, false, false, false, false, false, false, true, false, false, false⟩,
   200, 200, 100, "0.0bps"⟩

/-- A concrete stand-in for the `%.1f` formatter in the C7 counterexample,
distinguishing the two computed rates 800 and 400. -/
def c7fmt : ℚ → String := fun q => if q < 500 then "lo" else "hi"

/-- C7 counterexample.  `c7mon.transferred = c7mon.total_size`, yet the
claim's freeze does not happen: the code's completion test is
`transferred + offset == total_size` (here 300 ≠ 200), so after `showRate`
the completion flag is still unset and a second call recomputes a different
rate (800 bps over 1 s becomes 400 bps over 2 s). -/
theorem rate_freeze_counterexample :
    c7mon.transferred = c7mon.total_size ∧
    (showRate c7mon 1 c7fmt).2.flags.transComplete = false ∧
    (showRate ((showRate c7mon 1 c7fmt).2) 2 c7fmt).1
      ≠ (showRate c7mon 1 c7fmt).1 := by
  have hcond1 : ¬(c7mon.transferred = 0 ∨ c7mon.flags.transComplete = true) := by
    norm_num [c7mon]
  have hraw1 : rawRate c7mon 1 = 800 := by
    norm_num [rawRate, goSince, c7mon]
  have hscale1 : scaleRate (rawRate c7mon 1) 0 = (800, 0) := by
    rw [hraw1]
    exact scaleRate_bps (by norm_num)
  have h1 : showRate c7mon 1 c7fmt = ("hibps", { c7mon with rate := "hibps" }) := by
    simp only [showRate, if_neg hcond1, hscale1]
    norm_num [c7mon, c7fmt, unitNames]
    rfl
  have hraw2 : rawRate { c7mon with rate := "hibps" } 2 = 400 := by
    norm_num [rawRate, goSince, c7mon]
  have hscale2 : scaleRate (rawRate { c7mon with rate := "hibps" } 2) 0 = (400, 0) := by
    rw [hraw2]
    exact scaleRate_bps (by norm_num)
  have hcond2 : ¬(({ c7mon with rate := "hibps" } : Tmon).transferred = 0 ∨
      ({ c7mon with rate := "hibps" } : Tmon).flags.transComplete = true) := by
    norm_num [c7mon]
  have h2 : (showRate { c7mon with rate := "hibps" } 2 c7fmt).1 = "lobps" := by
    simp only [showRate, if_neg hcond2, hscale2]
    norm_num [c7mon, c7fmt, unitNames]
    rfl
  refine ⟨rfl, ?_, ?_⟩
  · rw [h1]
    rfl
  · rw [h1]
    refine ne_of_eq_of_ne ?_ (show "lobps" ≠ "hibps" by decide)
    simpa using h2

/-- C7 amended.  The raw rate is `(transferred - offset) * 8` bits divided by
`max(elapsed, 0.1)`; a completed monitor's rate is frozen (returned from the
cache, with no state change); the raw rate is nonnegative whenever
`transferred ≥ offset`; the displayed unit is chosen by base-1000
auto-scaling (`bps` below 1000, `kbps` below 10^6, `mbps` below 10^9, `gbps`
at or above); and the completion flag is set by `showRate` exactly when
`transferred + offset = total_size` (which is `transferred == total_size`
precisely when no seek has set a nonzero offset). -/
theorem transfer_rate_unit_scaling (t : Tmon) (elapsed : ℚ)
    (fmt1 : ℚ → String) (ht : t.transferred ≠ 0)
    (hc : t.flags.transComplete = false) :
    (rawRate t elapsed =
      ((t.transferred - t.offset : Int) : ℚ) * 8 / max elapsed (1/10)) ∧
    (∀ u : Tmon, u.flags.transComplete = true →
      showRate u elapsed fmt1 = (u.rate, u)) ∧
    (t.offset ≤ t.transferred → 0 ≤ rawRate t elapsed) ∧
    (0 < rawRate t elapsed → rawRate t elapsed < 1000 →
      (showRate t elapsed fmt1).1 = fmt1 (rawRate t elapsed) ++ "bps") ∧
    (1000 ≤ rawRate t elapsed → rawRate t elapsed < 1000000 →
      (showRate t elapsed fmt1).1 = fmt1 (rawRate t elapsed / 1000) ++ "kbps") ∧
    (1000000 ≤ rawRate t elapsed → rawRate t elapsed < 1000000000 →
      (showRate t elapsed fmt1).1 = fmt1 (rawRate t elapsed / 1000000) ++ "mbps") ∧
    (1000000000 ≤ rawRate t elapsed →
      (showRate t elapsed fmt1).1 = fmt1 (rawRate t elapsed / 1000000000) ++ "gbps") ∧
    ((showRate t elapsed fmt1).2.flags.transComplete = true ↔
      t.transferred + t.offset = t.total_size) := by
  have hcond : ¬(t.transferred = 0 ∨ t.flags.transComplete = true) := by
    simp [ht, hc]
  refine ⟨by rw [rawRate, goSince_eq_max], ?_, ?_, ?_, ?_, ?_, ?_, ?_⟩
  · intro u hu
    simp [showRate, hu]
  · intro hle
    unfold rawRate
    apply div_nonneg
    · have : (0 : Int) ≤ t.transferred - t.offset := by omega
      positivity
    · exact le_of_lt (goSince_pos elapsed)
  · intro h0 h1
    have hs := scaleRate_bps h1
    have hnz : rawRate t elapsed ≠ 0 := ne_of_gt h0
    simp only [showRate, if_neg hcond, hs]
    simp [hnz, unitNames, rate_ite]
  · intro h0 h1
    have hs := scaleRate_kbps h0 h1
    have hnz : rawRate t elapsed / 1000 ≠ 0 := by
      have hpos : (0:ℚ) < rawRate t elapsed := by linarith
      have : (0:ℚ) < rawRate t elapsed / 1000 := by positivity
      exact ne_of_gt this
    simp only [showRate, if_neg hcond, hs]
    simp [hnz, unitNames, rate_ite]
  · intro h0 h1
    have hs := scaleRate_mbps h0 h1
    have hnz : rawRate t elapsed / 1000000 ≠ 0 := by
      have hpos : (0:ℚ) < rawRate t elapsed := by linarith
      have : (0:ℚ) < rawRate t elapsed / 1000000 := by positivity
      exact ne_of_gt this
    simp only [showRate, if_neg hcond, hs]
    simp [hnz, unitNames, rate_ite]
  · intro h0
    have hs := scaleRate_gbps h0
    have hnz : rawRate t elapsed / 1000000000 ≠ 0 := by
      have hpos : (0:ℚ) < rawRate t elapsed := by linarith
      have : (0:ℚ) < rawRate t elapsed / 1000000000 := by positivity
      exact ne_of_gt this
    simp only [showRate, if_neg hcond, hs]
    simp [hnz, unitNames, rate_ite]
  · simp only [showRate, if_neg hcond]
    simp only [flags_ite, hc]
    by_cases hsum : t.transferred + t.offset = t.total_size
    · simp [hsum]
    · simp [hsum, hc]

/-- The concrete monitor for the C7 witness: 1000 of 2000 bytes transferred
with no seek. -/
def c7wit : Tmon :=
  ⟨⟨true, false, false, false, false, false, false, true, false, false, false⟩,
   2000, 1000, 0, "0.0bps"⟩

/-- Witness for C7 at a concrete in-progress monitor. -/
theorem transfer_rate_unit_scaling_witness :
    (rawRate c7wit 1 =
      ((c7wit.transferred - c7wit.offset : Int) : ℚ) * 8 / max 1 (1/10)) ∧
    (∀ u : Tmon, u.flags.transComplete = true →
      showRate u 1 (fun _ => "x") = (u.rate, u)) ∧
    (c7wit.offset ≤ c7wit.transferred → 0 ≤ rawRate c7wit 1) ∧
    (0 < rawRate c7wit 1 → rawRate c7wit 1 < 1000 →
      (showRate c7wit 1 (fun _ => "x")).1 = (fun _ => "x") (rawRate c7wit 1) ++ "bps") ∧
    (1000 ≤ rawRate c7wit 1 → rawRate c7wit 1 < 1000000 →
      (showRate c7wit 1 (fun _ => "x")).1 = (fun _ => "x") (rawRate c7wit 1 / 1000) ++ "kbps") ∧
    (1000000 ≤ rawRate c7wit 1 → rawRate c7wit 1 < 1000000000 →
      (showRate c7wit 1 (fun _ => "x")).1 = (fun _ => "x") (rawRate c7wit 1 / 1000000) ++ "mbps") ∧
    (1000000000 ≤ rawRate c7wit 1 →
      (showRate c7wit 1 (fun _ => "x")).1 = (fun _ => "x") (rawRate c7wit 1 / 1000000000) ++ "gbps") ∧
    ((showRate c7wit 1 (fun _ => "x")).2.flags.transComplete = true ↔
      c7wit.transferred + c7wit.offset = c7wit.total_size) :=
  transfer_rate_unit_scaling c7wit 1 (fun _ => "x") (by decide) rfl

/-- C8 counterexample.  A zero-total-size stream whose `Read` errors with
zero bytes transferred: the claim says the completion summary is suppressed,
but `Close` emits the summary because its condition is
`transferred > 0 || total_size == 0`. -/
theorem read_error_zero_progress_counterexample :
    (tmonRead
      ⟨⟨true, false, false, false, false, false, false, true, false, false, false⟩,
       0, 0, 0, "0.0bps"⟩ 0 true).transferred = 0 ∧
    (tmonRead
      ⟨⟨true, false, false, false, false, false, false, true, false, false, false⟩,
       0, 0, 0, "0.0bps"⟩ 0 true).flags.transClosed = true ∧
    (tmonRead
      ⟨⟨true, false, false, false, false, false, false, true, false, false, false⟩,
       0, 0, 0, "0.0bps"⟩ 0 true).flags.transError = true ∧
    (tmonClose (tmonRead
      ⟨⟨true, false, false, false, false, false, false, true, false, false, false⟩,
       0, 0, 0, "0.0bps"⟩ 0 true)).2 = true := by
  refine ⟨by decide, by decide, by decide, by decide⟩

/-- C8 amended.  A `Read` error while the total transferred count is zero
marks a not-yet-closed stream closed and errored, and the subsequent `Close`
emits no summary line provided `total_size ≠ 0`; a zero-total-size stream
always emits its summary (unless `NoSummary` is set), because `Close`
treats `total_size == 0` as a completed transfer. -/
theorem read_error_zero_progress (t : Tmon) (n : Int)
    (hn : t.transferred + n = 0) (hc : t.flags.transClosed = false)
    (hts : t.total_size ≠ 0) :
    (tmonRead t n true).transferred = 0 ∧
    (tmonRead t n true).flags.transClosed = true ∧
    (tmonRead t n true).flags.transError = true ∧
    (tmonClose (tmonRead t n true)).2 = false := by
  refine ⟨by simp [tmonRead, hn, hc], by simp [tmonRead, hc],
    by simp [tmonRead, hc], ?_⟩
  simp [tmonRead, tmonClose, hn, hc, hts]

/-- Witness for C8 at a concrete five-byte stream erroring before any
progress. -/
theorem read_error_zero_progress_witness :
    (tmonRead
      ⟨⟨true, false, false, false, false, false, false, true, false, false, false⟩,
       5, 0, 0, "0.0bps"⟩ 0 true).transferred = 0 ∧
    (tmonRead
      ⟨⟨true, false, false, false, false, false, false, true, false, false, false⟩,
       5, 0, 0, "0.0bps"⟩ 0 true).flags.transClosed = true ∧
    (tmonRead
      ⟨⟨true, false, false, false, false, false, false, true, false, false, false⟩,
       5, 0, 0, "0.0bps"⟩ 0 true).flags.transError = true ∧
    (tmonClose (tmonRead
      ⟨⟨true, false, false, false, false, false, false, true, false, false, false⟩,
       5, 0, 0, "0.0bps"⟩ 0 true)).2 = false :=
  read_error_zero_progress
    ⟨⟨true, false, false, false, false, false, false, true, false, false, false⟩,
     5, 0, 0, "0.0bps"⟩ 0 (by decide) rfl (by decide)

theorem genTS_getLast (t : GoTime) : (genTS t).getLast? = some ' ' := by
  unfold genTS
  rw [List.getLast?_append_of_ne_nil _ (by simp)]
  rfl

theorem genTS_ne_nil (t : GoTime) : genTS t ≠ [] := by
  unfold genTS
  simp

/-- A timestamp prefix commutes with the trailing-newline step: the
timestamp ends in `'] '`, never a newline, so the newline decision depends
only on what follows it. -/
theorem withNl_genTS (flag : Nat) (t : GoTime) (rest : Str)
    (hfl : flag &&& flash_txt ≠ flash_txt) :
    withNl flag (genTS t ++ rest) = genTS t ++ withNl flag rest := by
  cases rest with
  | nil =>
    have h1 := genTS_getLast t
    have h2 := List.length_pos.mpr (genTS_ne_nil t)
    simp [withNl, h1, h2, hfl]
  | cons c cs =>
    have h1 : (genTS t ++ (c :: cs)).getLast? = (c :: cs).getLast? :=
      List.getLast?_append_of_ne_nil _ (by simp)
    have h2 : (genTS t ++ (c :: cs)).length > 0 := by simp
    have h3 : (c :: cs).length > 0 := by simp
    simp only [withNl, h1, if_pos h2, if_pos h3]
    split
    · simp
    · rfl

/-- C5.  For a dispatch at any real severity (a level that is not a no-log
pseudo-level) that is not suppressed by the fatal gate, the copy written to
the file destination is exactly a timestamp followed by the same prefixed
message that went to the text destination — the timestamp is forced for the
file copy even when the writer's display-timestamp flag is off — and the
timestamp has the fixed-width zero-padded form `[YYYY/MM/DD HH:MM:SS TZ] `
(widths 4/2/2/2/2/2 for in-range clock values). -/
theorem file_copy_timestamped (st : LogSt) (lg : Logger) (flag : Nat)
    (F : Str → List GoVal → Str) (r : GoVal → Str) (vars : List GoVal)
    (hflag : flag ∈ realLevels) (hlg : st.lmap flag = some lg)
    (hf : st.fatal_triggered ≠ 1)
    (hy : st.now.year < 10000) (hmo : st.now.month < 100)
    (hd : st.now.day < 100) (hh : st.now.hour < 100)
    (hmi : st.now.minute < 100) (hs : st.now.sec < 100) :
    write2log st F r flag vars =
      some { flashOut := none,
             textOut := some ((if lg.use_ts then genTS st.now else [])
               ++ withNl flag (lg.pfx ++ fprintf F r vars)),
             fileOut := some (genTS st.now
               ++ withNl flag (lg.pfx ++ fprintf F r vars)),
             exportOut :=
               if st.exportHooked ∧ st.enabled_exports &&& flag = flag then
                 (syslogClassOf flag).map (fun c => (c, fprintf F r vars))
               else none } ∧
    genTS st.now =
      ['['] ++ padDec st.now.year 4 ++ ['/'] ++ padDec st.now.month 2
        ++ ['/'] ++ padDec st.now.day 2 ++ [' '] ++ padDec st.now.hour 2
        ++ [':'] ++ padDec st.now.minute 2 ++ [':'] ++ padDec st.now.sec 2
        ++ [' '] ++ st.now.zone ++ [']', ' '] ∧
    (padDec st.now.year 4).length = 4 ∧
    (padDec st.now.month 2).length = 2 ∧
    (padDec st.now.day 2).length = 2 ∧
    (padDec st.now.hour 2).length = 2 ∧
    (padDec st.now.minute 2).length = 2 ∧
    (padDec st.now.sec 2).length = 2 := by
  have hb : bclear flag bypass_lock = flag := by
    simp only [realLevels] at hflag
    fin_cases hflag <;> decide
  have hbn : bclear flag no_logging = flag := by
    simp only [realLevels] at hflag
    fin_cases hflag <;> decide
  have hnl : flag &&& no_logging ≠ no_logging := by
    simp only [realLevels] at hflag
    fin_cases hflag <;> decide
  have hnl0 : flag &&& no_logging = 0 := by
    simp only [realLevels] at hflag
    fin_cases hflag <;> decide
  have hfl0 : flag &&& flash_txt = 0 := by
    simp only [realLevels] at hflag
    fin_cases hflag <;> decide
  have hfl : flag &&& flash_txt ≠ flash_txt := by
    simp only [realLevels] at hflag
    fin_cases hflag <;> decide
  refine ⟨?_, rfl,
    padDec_length (by norm_num) (by norm_num; omega),
    padDec_length (by norm_num) (by norm_num; omega),
    padDec_length (by norm_num) (by norm_num; omega),
    padDec_length (by norm_num) (by norm_num; omega),
    padDec_length (by norm_num) (by norm_num; omega),
    padDec_length (by norm_num) (by norm_num; omega)⟩
  simp only [write2log, if_neg hf, hb, hbn, hlg, if_pos hnl]
  have hfl0' : ¬(flag &&& flash_txt ≠ 0) := by simp [hfl0]
  have hnl0' : ¬(flag &&& no_logging ≠ 0) := by simp [hnl0]
  simp only [if_neg hfl0', if_neg hnl0']
  by_cases hts : lg.use_ts
  · simp only [hts, if_pos, if_true]
    rw [List.append_assoc, withNl_genTS flag st.now _ hfl]
  · simp only [hts, if_false, Bool.false_eq_true, if_neg]
    simp

/-- Concrete logger and state for the C5 witness: display timestamps off,
so the file timestamp is forced. -/
def c5lg : Logger := ⟨"[X] ".data, ⟨1, false⟩, ⟨2, true⟩, false⟩

def c5st : LogSt :=
  ⟨0, (fun n => if n = INFO then some c5lg else none),
   ⟨2024, 5, 6, 7, 8, 9, "UTC".data⟩, false, 80, true, false, STD⟩

/-- Witness for C5: an `INFO` dispatch against `c5st`, whose file copy is
the forced timestamp followed by the prefixed message. -/
theorem file_copy_timestamped_witness :
    (write2log c5st (fun s _ => s) goShow INFO []).map Written.fileOut =
      some (some (genTS c5st.now
        ++ withNl INFO (c5lg.pfx ++ fprintf (fun s _ => s) goShow []))) := by
  have h := file_copy_timestamped c5st c5lg INFO (fun s _ => s) goShow []
    (by decide) rfl (by decide) (by decide) (by decide) (by decide)
    (by decide) (by decide) (by decide)
  rw [h.1]
  rfl

/-- C9.  After `Fatal` has performed the shutdown transition
(`fatal_triggered = 1`), every logging call that does not carry the internal
bypass flag — `Log`, `Err`, `Warn`, `Notice`, `Debug`, `Trace`, the four Aux
channels, `Stdout`, `Stderr`, and `Flash` — returns without writing a byte
to any text, file, or export destination; a bypass-flagged `write2log`
issued by the shutdown path itself still produces output. -/
theorem post_fatal_logging_suppressed (st : LogSt)
    (hf : st.fatal_triggered = 1) (F : Str → List GoVal → Str)
    (r : GoVal → Str) (vars : List GoVal) :
    LogI st F r vars = none ∧
    ErrI st F r vars = none ∧
    WarnI st F r vars = none ∧
    NoticeI st F r vars = none ∧
    DebugI st F r vars = none ∧
    TraceI st F r vars = none ∧
    AuxI st F r vars = none ∧
    Aux2I st F r vars = none ∧
    Aux3I st F r vars = none ∧
    Aux4I st F r vars = none ∧
    StdoutI st F r vars = none ∧
    StderrI st F r vars = none ∧
    FlashI st F r vars = none ∧
    (∀ lg, st.lmap FATAL = some lg →
      write2log st F r (FATAL ||| bypass_lock) vars ≠ none) := by
  refine ⟨?_, ?_, ?_, ?_, ?_, ?_, ?_, ?_, ?_, ?_, ?_, ?_, ?_, ?_⟩
  · simp [LogI, write2log, hf, show ¬(INFO &&& bypass_lock ≠ 0) from by decide]
  · simp [ErrI, write2log, hf, show ¬(ERROR &&& bypass_lock ≠ 0) from by decide]
  · simp [WarnI, write2log, hf, show ¬(WARN &&& bypass_lock ≠ 0) from by decide]
  · simp [NoticeI, write2log, hf,
      show ¬(NOTICE &&& bypass_lock ≠ 0) from by decide]
  · simp [DebugI, write2log, hf, show ¬(DEBUG &&& bypass_lock ≠ 0) from by decide]
  · simp [TraceI, write2log, hf, show ¬(TRACE &&& bypass_lock ≠ 0) from by decide]
  · simp [AuxI, write2log, hf, show ¬(AUX &&& bypass_lock ≠ 0) from by decide]
  · simp [Aux2I, write2log, hf, show ¬(AUX2 &&& bypass_lock ≠ 0) from by decide]
  · simp [Aux3I, write2log, hf, show ¬(AUX3 &&& bypass_lock ≠ 0) from by decide]
  · simp [Aux4I, write2log, hf, show ¬(AUX4 &&& bypass_lock ≠ 0) from by decide]
  · simp [StdoutI, write2log, hf,
      show ¬((print_txt ||| no_logging) &&& bypass_lock ≠ 0) from by decide]
  · simp [StderrI, write2log, hf,
      show ¬((stderr_txt ||| no_logging) &&& bypass_lock ≠ 0) from by decide]
  · unfold FlashI
    split
    · simp [write2log, hf,
        show ¬((flash_txt ||| no_logging) &&& bypass_lock ≠ 0) from by decide]
    · rfl
  · intro lg hlg
    simp only [write2log, hf, if_pos rfl,
      if_pos (show (FATAL ||| bypass_lock) &&& bypass_lock ≠ 0 from by decide),
      show (FATAL ||| bypass_lock) ^^^ bypass_lock = FATAL from by decide,
      show bclear FATAL bypass_lock = FATAL from by decide,
      show bclear FATAL no_logging = FATAL from by decide, hlg]
    have h1 : FATAL &&& flash_txt = 0 := by decide
    have h2 : FATAL &&& no_logging = 0 := by decide
    have h3 : bclear FATAL bypass_lock = FATAL := by decide
    have h4 : bclear FATAL no_logging = FATAL := by decide
    simp [h1, h2, h3, h4, hlg]

/-- Concrete post-`Fatal` state for the C9 witness. -/
def c9lg : Logger := ⟨"[FATAL] ".data, ⟨1, false⟩, ⟨2, true⟩, true⟩

def c9st : LogSt :=
  ⟨1, (fun n => if n = FATAL then some c9lg else none),
   ⟨2024, 5, 6, 7, 8, 9, "UTC".data⟩, false, 80, true, false, STD⟩

/-- Witness for C9 in a state where `Fatal` has set the flag to 1. -/
theorem post_fatal_logging_suppressed_witness :
    LogI c9st (fun s _ => s) goShow [] = none ∧
    ErrI c9st (fun s _ => s) goShow [] = none ∧
    WarnI c9st (fun s _ => s) goShow [] = none ∧
    NoticeI c9st (fun s _ => s) goShow [] = none ∧
    DebugI c9st (fun s _ => s) goShow [] = none ∧
    TraceI c9st (fun s _ => s) goShow [] = none ∧
    AuxI c9st (fun s _ => s) goShow [] = none ∧
    Aux2I c9st (fun s _ => s) goShow [] = none ∧
    Aux3I c9st (fun s _ => s) goShow [] = none ∧
    Aux4I c9st (fun s _ => s) goShow [] = none ∧
    StdoutI c9st (fun s _ => s) goShow [] = none ∧
    StderrI c9st (fun s _ => s) goShow [] = none ∧
    FlashI c9st (fun s _ => s) goShow [] = none ∧
    (∀ lg, c9st.lmap FATAL = some lg →
      write2log c9st (fun s _ => s) goShow (FATAL ||| bypass_lock) [] ≠ none) :=
  post_fatal_logging_suppressed c9st rfl (fun s _ => s) goShow []

end Snugforge
